import Mathlib

/-!
# Verification of the `cube` repository

Shallow embedding of the two program variants:

* variant A (`src/unnamed/part_000`): "reveal in place" — a primary click
  textures the hit cube and drops it to the column's current stack slot;
  a secondary click resets every cube.
* variant B (`src/main.js`): "spawn and stack" — a primary click spawns a
  fresh textured cube that drops onto the column; pointer moves highlight
  the hovered column; the secondary-click reset body is commented out.

Coordinates and opacities are embedded as exact rationals (the source's
numeric literals `0.5`, `0.05`, `0.1`, `0.01`, `0.8`, `0.001` are treated
as the decimal fractions they denote).  The tweening engine is opaque:
the model records each scheduled tween (an `Anim` value) and applies its
settled end position immediately.  Ray casting is opaque: each handler
takes the index of the nearest hit cube (or `none`) as an input.
The JS `Map` keyed by the string `` `${x}_${y}` `` is embedded as an
insertion-ordered association list keyed by the pair `(x, y)`; this is
faithful because JS number-to-string conversion is injective.
-/

/-- `cubeSize` from the source (0.5). -/
def cubeSize : ℚ := 1/2

/-- `gridSize` from the source (cubes per axis, also the stack limit). -/
def gridSize : ℕ := 10

/-- `spacing` from the source (0.05). -/
def spacing : ℚ := 1/20

/-- `boundaryMin = -(gridSize / 2) * (cubeSize + spacing)`. -/
def boundaryMin : ℚ := -((gridSize : ℚ) / 2) * (cubeSize + spacing)

/-- `boundaryMax = (gridSize / 2 - 1) * (cubeSize + spacing)`. -/
def boundaryMax : ℚ := ((gridSize : ℚ) / 2 - 1) * (cubeSize + spacing)

/-- World coordinate of grid index `i` along any axis:
`(i - gridSize / 2) * (cubeSize + spacing)`. -/
def posCoord (i : ℕ) : ℚ := ((i : ℚ) - (gridSize : ℚ) / 2) * (cubeSize + spacing)

/-- Top-of-grid z coordinate `(gridSize / 2) * (cubeSize + spacing)`, the
start of every drop animation. -/
def topZ : ℚ := ((gridSize : ℚ) / 2) * (cubeSize + spacing)

/-- Variant A pre-clamp drop target for stack height `h`:
`h * (cubeSize + spacing) - (gridSize / 2) * (cubeSize + spacing)`
(`part_000`, line 141). -/
def newZPositionA (h : ℕ) : ℚ :=
  (h : ℚ) * (cubeSize + spacing) - ((gridSize : ℚ) / 2) * (cubeSize + spacing)

/-- Variant B pre-clamp drop target for stack height `h`:
`(h + 1) * (cubeSize + spacing) - (gridSize / 2) * (cubeSize + spacing)`
(`main.js`, line 164). -/
def newZPositionB (h : ℕ) : ℚ :=
  ((h : ℚ) + 1) * (cubeSize + spacing) - ((gridSize : ℚ) / 2) * (cubeSize + spacing)

/-- `Math.min(boundaryMax, Math.max(boundaryMin, z))`. -/
def constrainZ (z : ℚ) : ℚ := min boundaryMax (max boundaryMin z)

/-! ## The stack tracker (`cubePositions` JS `Map`) -/

/-- Column key: the pair `(x, y)` standing for the string `` `${x}_${y}` ``. -/
abbrev ColKey := ℚ × ℚ

/-- Stack tracker: insertion-ordered association list, like a JS `Map`. -/
abbrev Tracker := List (ColKey × ℕ)

/-- `Map.get`: the stored value for the key, `none` when absent. -/
def trackerGet (m : Tracker) (k : ColKey) : Option ℕ :=
  match m with
  | [] => none
  | e :: rest => if k = e.1 then some e.2 else trackerGet rest k

/-- `Map.set`: overwrite in place when the key exists, append otherwise. -/
def trackerSet (m : Tracker) (k : ColKey) (v : ℕ) : Tracker :=
  match m with
  | [] => [(k, v)]
  | e :: rest => if k = e.1 then (k, v) :: rest else e :: trackerSet rest k v

/-- Variant A height read, `cubePositions.get(positionKey(x, y))`
(`part_000`, line 138): no default for an absent key. -/
def readStackHeightA (m : Tracker) (k : ColKey) : Option ℕ := trackerGet m k

/-- Variant B height read, `cubePositions.get(positionKey(x, y)) || 0`
(`main.js`, line 135): 0 when the key is absent (a stored 0 is also
falsy in JS and likewise yields 0). -/
def readStackHeightB (m : Tracker) (k : ColKey) : ℕ := (trackerGet m k).getD 0

/-- The grid-construction loop's tracker initialisation: for each cube key
in order, `if (!cubePositions.has(key)) cubePositions.set(key, 0)`. -/
def initTrackerKeys (ks : List ColKey) : Tracker :=
  ks.foldl (fun m k => if (trackerGet m k).isSome then m else m ++ [(k, 0)]) []

/-- A scheduled tween.  `fromZ` is the explicit start z of a
`gsap.fromTo` (none for `gsap.to`); `toX`/`toY` are present only when the
tween also moves x and y (the reset animation). -/
structure Anim where
  fromZ : Option ℚ
  toX : Option ℚ
  toY : Option ℚ
  toZ : ℚ
  duration : ℚ
deriving DecidableEq, Repr

/-! ## Variant A (`src/unnamed/part_000`) -/

/-- Variant A material: texture attachment and opacity. -/
structure MaterialA where
  map : Bool
  opacity : ℚ
deriving DecidableEq, Repr

/-- Variant A cube: position, recorded spawn position (the
`originalPositions` entry), material, `textured` flag. -/
structure CubeA where
  pos : ℚ × ℚ × ℚ
  original : ℚ × ℚ × ℚ
  mat : MaterialA
  textured : Bool
deriving DecidableEq, Repr

/-- Column key of a variant A cube (`positionKey(position.x, position.y)`). -/
def colOfA (c : CubeA) : ColKey := (c.pos.1, c.pos.2.1)

/-- The grid cube at indices `(x, y, z)`: opacity 0.1, untextured, spawn
position recorded. -/
def mkCubeA (x y z : ℕ) : CubeA :=
  { pos := (posCoord x, posCoord y, posCoord z)
    original := (posCoord x, posCoord y, posCoord z)
    mat := { map := false, opacity := 1/10 }
    textured := false }

/-- The variant A grid-construction triple loop (x, then y, then z). -/
def initCubesA : List CubeA :=
  (List.range gridSize).flatMap fun x =>
    (List.range gridSize).flatMap fun y =>
      (List.range gridSize).map fun z => mkCubeA x y z

/-- Variant A program state: the `cubes` array and the `cubePositions`
map (`originalPositions` lives inside each cube as `original`). -/
structure StateA where
  cubes : List CubeA
  cubePositions : Tracker
deriving DecidableEq, Repr

/-- Variant A startup state. -/
def initStateA : StateA :=
  { cubes := initCubesA
    cubePositions := initTrackerKeys (initCubesA.map colOfA) }

/-- The drop tween: `gsap.fromTo(cube.position, { z: topZ }, { z, 1.5s })`. -/
def dropAnim (z : ℚ) : Anim :=
  { fromZ := some topZ, toX := none, toY := none, toZ := z, duration := 3/2 }

/-- The clicked cube after a variant A placement at stack height `h`:
texture attached, opacity 1, marked textured, z settled at the clamped
drop target. -/
def clickedCubeA (cube : CubeA) (h : ℕ) : CubeA :=
  { cube with
      mat := { map := true, opacity := 1 }
      textured := true
      pos := (cube.pos.1, cube.pos.2.1, constrainZ (newZPositionA h)) }

/-- Variant A `onCubeClick`.  `hit` is the raycast result: the index of
the nearest intersected cube, or `none` when nothing is hit.  Returns
the new state and the list of scheduled tweens. -/
def onCubeClickA (s : StateA) (hit : Option ℕ) : StateA × List Anim :=
  match hit with
  | none => (s, [])
  | some i =>
    match s.cubes.get? i with
    | none => (s, [])
    | some cube =>
      if cube.textured then (s, [])
      else
        match readStackHeightA s.cubePositions (colOfA cube) with
        | none => (s, [])
          -- dead along reachable states: every grid cube's key is present
          -- from startup (the source would read `undefined` here)
        | some currentZ =>
          ({ cubes := s.cubes.set i (clickedCubeA cube currentZ)
             cubePositions := trackerSet s.cubePositions (colOfA cube) (currentZ + 1) },
           [dropAnim (constrainZ (newZPositionA currentZ))])

/-- The per-cube body of variant A `undoAllCubes`: position back to the
recorded spawn coordinate, texture detached, opacity 0.1, flag cleared. -/
def resetCubeA (c : CubeA) : CubeA :=
  { c with
      pos := c.original
      mat := { map := false, opacity := 1/10 }
      textured := false }

/-- Variant A `undoAllCubes`: reset every cube and zero every stored stack
height, scheduling one move-to-origin tween per cube. -/
def undoAllCubesA (s : StateA) : StateA × List Anim :=
  ({ cubes := s.cubes.map resetCubeA
     cubePositions := s.cubePositions.map fun e => (e.1, 0) },
   s.cubes.map fun c =>
     { fromZ := none, toX := some c.original.1, toY := some c.original.2.1
       toZ := c.original.2.2, duration := 1 })

/-- A variant A input event: a `mousedown` with its button number and the
raycast result relevant to the click handler (part_000 registers no
`mousemove` listener). -/
inductive EventA where
  | mousedown (button : ℕ) (hit : Option ℕ)
deriving DecidableEq, Repr

/-- Variant A event dispatch (`part_000` `mousedown` listener):
button 0 places, button 2 resets, other buttons do nothing. -/
def stepA (s : StateA) (e : EventA) : StateA × List Anim :=
  match e with
  | .mousedown 0 hit => onCubeClickA s hit
  | .mousedown 2 _ => undoAllCubesA s
  | .mousedown _ _ => (s, [])

/-- Variant A reachable states: the startup state and everything the
event dispatcher can produce from one. -/
inductive ReachableA : StateA → Prop where
  | start : ReachableA initStateA
  | step (s : StateA) (e : EventA) : ReachableA s → ReachableA (stepA s e).1

/-! ## Variant B (`src/main.js`) -/

/-- Variant B material: texture attachment, opacity, emissive tint
(a hex colour; 0 is black, `0xff0000 = 16711680` is the red highlight). -/
structure MaterialB where
  map : Bool
  opacity : ℚ
  emissive : ℕ
deriving DecidableEq, Repr

/-- Variant B cube.  `original` is `some` spawn position for the startup
grid cubes (recorded in `originalPositions`) and `none` for spawned
cubes, which `main.js` never registers there. -/
structure CubeB where
  pos : ℚ × ℚ × ℚ
  original : Option (ℚ × ℚ × ℚ)
  mat : MaterialB
  textured : Bool
deriving DecidableEq, Repr

/-- Column key of a variant B cube. -/
def colOfB (c : CubeB) : ColKey := (c.pos.1, c.pos.2.1)

/-- The variant B grid cube at indices `(x, y, z)`: opacity 0.01, raised
to 0.8 on the bottom layer (`z == 0`), untextured, spawn position
recorded. -/
def mkCubeB (x y z : ℕ) : CubeB :=
  { pos := (posCoord x, posCoord y, posCoord z)
    original := some (posCoord x, posCoord y, posCoord z)
    mat := { map := false
             opacity := if z = 0 then 8/10 else 1/100
             emissive := 0 }
    textured := false }

/-- The variant B grid-construction triple loop. -/
def initCubesB : List CubeB :=
  (List.range gridSize).flatMap fun x =>
    (List.range gridSize).flatMap fun y =>
      (List.range gridSize).map fun z => mkCubeB x y z

/-- Variant B program state: the `cubes` array, the `cubePositions` map
and the `highlightedCubes` list (cube indices). -/
structure StateB where
  cubes : List CubeB
  cubePositions : Tracker
  highlighted : List ℕ
deriving DecidableEq, Repr

/-- Variant B startup state. -/
def initStateB : StateB :=
  { cubes := initCubesB
    cubePositions := initTrackerKeys (initCubesB.map colOfB)
    highlighted := [] }

/-- The cube spawned by a variant B placement at a column of height `h`:
a fresh mesh sharing the clicked cube's geometry, its cloned material
overwritten with the texture, opacity 1 and black emissive, marked
textured, settled at the clamped drop target (`main.js`, lines 141–177). -/
def spawnedCubeB (clicked : CubeB) (h : ℕ) : CubeB :=
  { pos := (clicked.pos.1, clicked.pos.2.1, constrainZ (newZPositionB h))
    original := none
    mat := { map := true, opacity := 1, emissive := 0 }
    textured := true }

/-- Variant B `onCubeClick`: place a new cube unless the column is full. -/
def onCubeClickB (s : StateB) (hit : Option ℕ) : StateB × List Anim :=
  match hit with
  | none => (s, [])
  | some i =>
    match s.cubes.get? i with
    | none => (s, [])
    | some clicked =>
      let currentZ := readStackHeightB s.cubePositions (colOfB clicked)
      if currentZ < gridSize then
        ({ cubes := s.cubes ++ [spawnedCubeB clicked currentZ]
           cubePositions := trackerSet s.cubePositions (colOfB clicked) (currentZ + 1)
           highlighted := s.highlighted },
         [dropAnim (constrainZ (newZPositionB currentZ))])
      else (s, [])
        -- `console.log("Stack is full, cannot place any more cubes here.")`

/-- A cube with its emissive colour replaced. -/
def withEmissive (c : CubeB) (v : ℕ) : CubeB :=
  { c with mat := { c.mat with emissive := v } }

/-- Set the emissive colour of the cube at index `i` (no-op when out of
range, which never happens for the indices the handlers produce). -/
def setEmissiveAt (cs : List CubeB) (i : ℕ) (v : ℕ) : List CubeB :=
  match cs.get? i with
  | none => cs
  | some c => cs.set i (withEmissive c v)

/-- The highlight-clearing pass of `onMouseMove`: reset the emissive
colour of every currently highlighted cube to black. -/
def resetEmissive (cs : List CubeB) (hs : List ℕ) : List CubeB :=
  hs.foldl (fun acc j => setEmissiveAt acc j 0) cs

/-- The column-matching test of `onMouseMove`:
`Math.abs(cube.position.x - targetX) < 0.001 && Math.abs(cube.position.y - targetY) < 0.001`. -/
def sameColumnB (target c : ℚ × ℚ × ℚ) : Bool :=
  decide (|c.1 - target.1| < 1/1000) && decide (|c.2.1 - target.2.1| < 1/1000)

/-- Indices (in array order) of all tracked cubes in the hovered column. -/
def highlightIdxsB (cs : List CubeB) (target : ℚ × ℚ × ℚ) : List ℕ :=
  (List.range cs.length).filter fun j =>
    match cs.get? j with
    | some c => sameColumnB target c.pos
    | none => false

/-- The highlight-applying pass: tint every matched cube red. -/
def applyHighlight (cs : List CubeB) (idxs : List ℕ) : List CubeB :=
  idxs.foldl (fun acc j => setEmissiveAt acc j 16711680) cs

/-- Variant B `onMouseMove`: clear the previous highlight set, then, when
the ray hits a cube, tint and record every tracked cube in its column. -/
def onMouseMoveB (s : StateB) (hit : Option ℕ) : StateB :=
  let cs := resetEmissive s.cubes s.highlighted
  match hit with
  | none => { s with cubes := cs, highlighted := [] }
  | some i =>
    match cs.get? i with
    | none => { s with cubes := cs, highlighted := [] }
    | some target =>
      let idxs := highlightIdxsB cs target.pos
      { s with cubes := applyHighlight cs idxs, highlighted := idxs }

/-- A variant B input event: a pointer move or a `mousedown`, each with
the raycast result for the handler's own ray cast. -/
inductive EventB where
  | mousemove (hit : Option ℕ)
  | mousedown (button : ℕ) (hit : Option ℕ)
deriving DecidableEq, Repr

/-- Variant B event dispatch (`main.js` listeners): pointer moves
highlight, button 0 places, button 2's reset body is commented out in
the source, other buttons do nothing. -/
def stepB (s : StateB) (e : EventB) : StateB × List Anim :=
  match e with
  | .mousemove hit => (onMouseMoveB s hit, [])
  | .mousedown 0 hit => onCubeClickB s hit
  | .mousedown 2 _ => (s, [])
  | .mousedown _ _ => (s, [])

/-- Variant B reachable states. -/
inductive ReachableB : StateB → Prop where
  | start : ReachableB initStateB
  | step (s : StateB) (e : EventB) : ReachableB s → ReachableB (stepB s e).1


/-! ## Invariants and small demonstration states -/

/-- Number of textured cubes in column `k`. -/
def texCountA (cs : List CubeA) (k : ColKey) : ℕ :=
  cs.countP fun c => decide (colOfA c = k) && c.textured

/-- Number of cubes (textured or not) in column `k`. -/
def colCountA (cs : List CubeA) (k : ColKey) : ℕ :=
  cs.countP fun c => decide (colOfA c = k)

/-- The variant A state invariant: the cubes' column keys are those of
the startup grid (clicks move only z, resets restore the spawn point),
every cube's x and y agree with its recorded spawn coordinate, every
cube's column key is present in the tracker, and every stored stack
height counts exactly the textured cubes of its column. -/
def InvA (s : StateA) : Prop :=
  s.cubes.map colOfA = initCubesA.map colOfA
  ∧ (∀ c ∈ s.cubes, c.pos.1 = c.original.1 ∧ c.pos.2.1 = c.original.2.1)
  ∧ (∀ c ∈ s.cubes, (trackerGet s.cubePositions (colOfA c)).isSome)
  ∧ (∀ k v, trackerGet s.cubePositions k = some v → v = texCountA s.cubes k)

/-- The variant B tracker invariant: no stored height exceeds `gridSize`. -/
def InvB (s : StateB) : Prop :=
  ∀ k v, trackerGet s.cubePositions k = some v → v ≤ gridSize

/-- A one-cube variant A demonstration state (untextured cube at the
origin key). -/
def demoCubeA : CubeA :=
  { pos := (0, 0, 0), original := (0, 0, 0)
    mat := { map := false, opacity := 1/10 }, textured := false }

/-- Demonstration state holding `demoCubeA` with stack height 0. -/
def demoStateA : StateA :=
  { cubes := [demoCubeA], cubePositions := [((0, 0), 0)] }

/-- An already-textured variant A cube. -/
def demoTexturedCubeA : CubeA :=
  { pos := (0, 0, 0), original := (0, 0, 0)
    mat := { map := true, opacity := 1 }, textured := true }

/-- Demonstration state holding one textured cube displaced from its
spawn position. -/
def demoStateA2 : StateA :=
  { cubes := [{ demoTexturedCubeA with pos := (0, 0, 1) }]
    cubePositions := [((0, 0), 3)] }

/-- The cube of `demoStateA2` after a reset pass. -/
def demoResetCubeA : CubeA :=
  { pos := (0, 0, 0), original := (0, 0, 0)
    mat := { map := false, opacity := 1/10 }, textured := false }

/-- A variant B demonstration cube at the origin key. -/
def demoCubeB : CubeB :=
  { pos := (0, 0, 0), original := some (0, 0, 0)
    mat := { map := false, opacity := 1/100, emissive := 0 }, textured := false }

/-- Demonstration variant B state with stack height 0. -/
def demoStateB : StateB :=
  { cubes := [demoCubeB], cubePositions := [((0, 0), 0)], highlighted := [] }

/-- Demonstration variant B state whose single column is already full. -/
def demoFullStateB : StateB :=
  { cubes := [demoCubeB], cubePositions := [((0, 0), 10)], highlighted := [] }

/-- A variant B cube placed at position `p`. -/
def demoCubeBAt (p : ℚ × ℚ × ℚ) : CubeB :=
  { pos := p, original := some p
    mat := { map := false, opacity := 1/100, emissive := 0 }, textured := false }

/-- Demonstration variant B state with a three-cube column over `(0, 0)`
and one unrelated cube at a different key, cube 3 currently highlighted. -/
def demoHoverStateB : StateB :=
  { cubes := [demoCubeBAt (0, 0, 0), demoCubeBAt (0, 0, 1),
              demoCubeBAt (0, 0, 2), demoCubeBAt (1, 0, 0)]
    cubePositions := [((0, 0), 0), ((1, 0), 0)]
    highlighted := [3] }

/-! ## Tracker lemmas -/

theorem trackerGet_trackerSet (m : Tracker) (k k' : ColKey) (v : ℕ) :
    trackerGet (trackerSet m k v) k' =
      if k' = k then some v else trackerGet m k' := by
  induction m with
  | nil =>
    by_cases h : k' = k <;> simp [trackerSet, trackerGet, h]
  | cons e rest ih =>
    by_cases hk : k = e.1
    · by_cases h : k' = k
      · simp [trackerSet, trackerGet, hk, h]
      · have h2 : ¬k' = e.1 := fun hh => h (by rw [hh, hk])
        simp [trackerSet, trackerGet, hk, h, h2]
    · by_cases h : k' = e.1
      · have h2 : ¬k' = k := fun hh => hk (by rw [← hh, h])
        have h3 : ¬e.1 = k := fun hh => hk hh.symm
        simp [trackerSet, trackerGet, hk, h, h2, h3]
      · simp [trackerSet, trackerGet, hk, h, ih]

theorem trackerGet_append_of_some (m m' : Tracker) (k : ColKey) (v : ℕ)
    (h : trackerGet m k = some v) : trackerGet (m ++ m') k = some v := by
  induction m with
  | nil => simp [trackerGet] at h
  | cons e rest ih =>
    by_cases hk : k = e.1
    · simp [trackerGet, hk] at h ⊢; exact h
    · simp [trackerGet, hk] at h ⊢; exact ih h

theorem trackerGet_append_of_none (m m' : Tracker) (k : ColKey)
    (h : trackerGet m k = none) : trackerGet (m ++ m') k = trackerGet m' k := by
  induction m with
  | nil => simp [trackerGet]
  | cons e rest ih =>
    by_cases hk : k = e.1
    · simp [trackerGet, hk] at h
    · simp [trackerGet, hk] at h ⊢; exact ih h

theorem trackerGet_initTrackerKeys_fold_isSome (ks : List ColKey) (m : Tracker)
    (k : ColKey) (h : (trackerGet m k).isSome ∨ k ∈ ks) :
    (trackerGet (ks.foldl
      (fun m k => if (trackerGet m k).isSome then m else m ++ [(k, 0)]) m) k).isSome := by
  induction ks generalizing m with
  | nil =>
    rcases h with h | h
    · simpa using h
    · simp at h
  | cons a t ih =>
    simp only [List.foldl_cons]
    apply ih
    by_cases ha : (trackerGet m a).isSome
    · simp only [ha, if_pos]
      rcases h with h | h
      · exact Or.inl h
      · rcases List.mem_cons.mp h with rfl | h
        · exact Or.inl ha
        · exact Or.inr h
    · simp only [ha, if_neg, Bool.false_eq_true, not_false_iff]
      rcases h with h | h
      · rcases hv : trackerGet m k with _ | v
        · rw [hv] at h; simp at h
        · exact Or.inl (by rw [trackerGet_append_of_some m _ k v hv]; rfl)
      · rcases List.mem_cons.mp h with rfl | h
        · left
          rw [trackerGet_append_of_none m _ k (Option.not_isSome_iff_eq_none.mp ha)]
          simp [trackerGet]
        · exact Or.inr h

theorem trackerGet_initTrackerKeys_isSome (ks : List ColKey) (k : ColKey)
    (h : k ∈ ks) : (trackerGet (initTrackerKeys ks) k).isSome :=
  trackerGet_initTrackerKeys_fold_isSome ks [] k (Or.inr h)

theorem trackerGet_initTrackerKeys_fold_zero (ks : List ColKey) (m : Tracker)
    (hm : ∀ k v, trackerGet m k = some v → v = 0) (k : ColKey) (v : ℕ)
    (h : trackerGet (ks.foldl
      (fun m k => if (trackerGet m k).isSome then m else m ++ [(k, 0)]) m) k = some v) :
    v = 0 := by
  induction ks generalizing m with
  | nil => exact hm k v h
  | cons a t ih =>
    simp only [List.foldl_cons] at h
    refine ih _ ?_ h
    by_cases ha : (trackerGet m a).isSome
    · simpa [ha] using hm
    · simp only [ha, if_neg, Bool.false_eq_true, not_false_iff]
      intro k' v' h'
      rcases hv : trackerGet m k' with _ | w
      · rw [trackerGet_append_of_none m _ k' hv] at h'
        simp only [trackerGet] at h'
        split at h'
        · exact (Option.some_inj.mp h').symm
        · simp [trackerGet] at h'
      · rw [trackerGet_append_of_some m _ k' w hv] at h'
        exact (Option.some_inj.mp h') ▸ hm k' w hv

theorem trackerGet_initTrackerKeys_zero (ks : List ColKey) (k : ColKey) (v : ℕ)
    (h : trackerGet (initTrackerKeys ks) k = some v) : v = 0 :=
  trackerGet_initTrackerKeys_fold_zero ks [] (by intro k v h; simp [trackerGet] at h) k v h

theorem trackerGet_map_zero (m : Tracker) (k : ColKey) :
    trackerGet (m.map fun e => (e.1, 0)) k = (trackerGet m k).map fun _ => 0 := by
  induction m with
  | nil => simp [trackerGet]
  | cons e rest ih =>
    by_cases hk : k = e.1 <;> simp [trackerGet, hk, ih]

/-! ## Generic counting helpers -/

theorem countP_set_balance {α : Type} (p : α → Bool) (l : List α) (i : ℕ)
    (a b : α) (h : l.get? i = some b) :
    (l.set i a).countP p + (if p b then 1 else 0)
      = l.countP p + (if p a then 1 else 0) := by
  induction l generalizing i with
  | nil => simp at h
  | cons c t ih =>
    cases i with
    | zero =>
      simp only [List.get?_eq_getElem?, List.getElem?_cons_zero, Option.some_inj] at h
      subst h
      simp only [List.set_cons_zero, List.countP_cons]
      omega
    | succ j =>
      simp only [List.get?_eq_getElem?, List.getElem?_cons_succ] at h
      have := ih j (by simpa [List.get?_eq_getElem?] using h)
      simp only [List.set_cons_succ, List.countP_cons]
      omega

theorem sum_map_range_zero (f : ℕ → ℕ) (n : ℕ) (h : ∀ i, i < n → f i = 0) :
    ((List.range n).map f).sum = 0 := by
  apply List.sum_eq_zero
  intro x hx
  rcases List.mem_map.mp hx with ⟨i, hi, rfl⟩
  exact h i (List.mem_range.mp hi)

theorem exists_pos_of_sum_map_range_pos (f : ℕ → ℕ) (n : ℕ)
    (h : 0 < ((List.range n).map f).sum) : ∃ i, i < n ∧ 0 < f i := by
  by_contra hc
  push_neg at hc
  rw [sum_map_range_zero f n (fun i hi => Nat.le_zero.mp (hc i hi))] at h
  exact Nat.lt_irrefl 0 h

theorem sum_map_range_le_of_unique (f : ℕ → ℕ) (c n : ℕ)
    (hb : ∀ i, i < n → f i ≤ c)
    (hu : ∀ i j, i < n → j < n → 0 < f i → 0 < f j → i = j) :
    ((List.range n).map f).sum ≤ c := by
  induction n with
  | zero => simp
  | succ m ih =>
    rw [List.range_succ, List.map_append, List.sum_append]
    rcases Nat.eq_zero_or_pos (f m) with hz | hp
    · have : ((List.range m).map f).sum ≤ c :=
        ih (fun i hi => hb i (Nat.lt_succ_of_lt hi))
          (fun i j hi hj => hu i j (Nat.lt_succ_of_lt hi) (Nat.lt_succ_of_lt hj))
      simpa [hz] using this
    · have hzero : ∀ i, i < m → f i = 0 := by
        intro i hi
        by_contra hne
        have := hu i m (Nat.lt_succ_of_lt hi) (Nat.lt_succ_self m)
          (Nat.pos_of_ne_zero hne) hp
        omega
      rw [sum_map_range_zero f m hzero]
      simpa using hb m (Nat.lt_succ_self m)

/-! ## Geometry of the initial grid -/

theorem posCoord_inj (x y : ℕ) (h : posCoord x = posCoord y) : x = y := by
  unfold posCoord at h
  have hstep : cubeSize + spacing ≠ 0 := by norm_num [cubeSize, spacing]
  have h2 : (x : ℚ) - (gridSize : ℚ) / 2 = (y : ℚ) - (gridSize : ℚ) / 2 :=
    mul_right_cancel₀ hstep h
  have h3 : (x : ℚ) = (y : ℚ) := by linarith
  exact_mod_cast h3

theorem countP_col_initCubesA_le (k : ColKey) :
    initCubesA.countP (fun c => decide (colOfA c = k)) ≤ gridSize := by
  have hcount : initCubesA.countP (fun c => decide (colOfA c = k)) =
      ((List.range gridSize).map fun x =>
        ((List.range gridSize).map fun y =>
          if (posCoord x, posCoord y) = k then gridSize else 0).sum).sum := by
    rw [initCubesA, List.countP_flatMap]
    refine congrArg List.sum (List.map_congr_left ?_)
    intro x _
    simp only [Function.comp_apply]
    rw [List.countP_flatMap]
    refine congrArg List.sum (List.map_congr_left ?_)
    intro y _
    simp only [Function.comp_apply]
    rw [List.countP_map]
    by_cases hk : (posCoord x, posCoord y) = k
    · have : ((fun c => decide (colOfA c = k)) ∘ mkCubeA x y) = fun _ => true := by
        funext z
        simp [Function.comp, colOfA, mkCubeA, hk]
      rw [this]
      simp [hk, List.length_range]
    · have : ((fun c => decide (colOfA c = k)) ∘ mkCubeA x y) = fun _ => false := by
        funext z
        simp [Function.comp, colOfA, mkCubeA, hk]
      rw [this]
      simp [hk]
  rw [hcount]
  apply sum_map_range_le_of_unique
  · intro x _
    apply sum_map_range_le_of_unique
    · intro y _
      split <;> simp
    · intro y y' _ _ hy hy'
      have h1 : (posCoord x, posCoord y) = k := by
        by_contra hc; simp [hc] at hy
      have h2 : (posCoord x, posCoord y') = k := by
        by_contra hc; simp [hc] at hy'
      exact posCoord_inj y y' (by
        have := h1.trans h2.symm
        exact (Prod.mk.injEq _ _ _ _ ▸ this).2)
  · intro x x' _ _ hx hx'
    rcases exists_pos_of_sum_map_range_pos _ _ hx with ⟨y, _, hy⟩
    rcases exists_pos_of_sum_map_range_pos _ _ hx' with ⟨y', _, hy'⟩
    have h1 : (posCoord x, posCoord y) = k := by
      by_contra hc; simp [hc] at hy
    have h2 : (posCoord x', posCoord y') = k := by
      by_contra hc; simp [hc] at hy'
    exact posCoord_inj x x' (by
      have := h1.trans h2.symm
      exact (Prod.mk.injEq _ _ _ _ ▸ this).1)

/-! ## The variant A invariant -/

theorem list_set_self {α : Type} (l : List α) (i : ℕ) (a : α)
    (h : l.get? i = some a) : l.set i a = l := by
  induction l generalizing i with
  | nil => simp at h
  | cons c t ih =>
    cases i with
    | zero =>
      simp only [List.get?_eq_getElem?, List.getElem?_cons_zero, Option.some_inj] at h
      rw [List.set_cons_zero, h]
    | succ j =>
      simp only [List.get?_eq_getElem?, List.getElem?_cons_succ] at h
      rw [List.set_cons_succ, ih j (by simpa [List.get?_eq_getElem?] using h)]

theorem initCubesA_fields (c : CubeA) (h : c ∈ initCubesA) :
    c.original = c.pos ∧ c.textured = false := by
  rcases List.mem_flatMap.mp h with ⟨x, _, hx⟩
  rcases List.mem_flatMap.mp hx with ⟨y, _, hy⟩
  rcases List.mem_map.mp hy with ⟨z, _, rfl⟩
  exact ⟨rfl, rfl⟩

theorem texCountA_eq_zero_of_untextured (cs : List CubeA) (k : ColKey)
    (h : ∀ c ∈ cs, c.textured = false) : texCountA cs k = 0 := by
  rw [texCountA, List.countP_eq_zero]
  intro c hc
  simp [h c hc]


theorem initStateA_cubes_eq : initStateA.cubes = initCubesA := by
  simp only [initStateA]

theorem initStateA_tracker_eq :
    initStateA.cubePositions = initTrackerKeys (initCubesA.map colOfA) := by
  simp only [initStateA]

theorem invA_init : InvA initStateA := by
  unfold InvA
  rw [initStateA_cubes_eq, initStateA_tracker_eq]
  refine ⟨rfl, ?_, ?_, ?_⟩
  · intro c hc
    obtain ⟨ho, -⟩ := initCubesA_fields c hc
    rw [ho]
    exact ⟨rfl, rfl⟩
  · intro c hc
    exact trackerGet_initTrackerKeys_isSome _ _ (List.mem_map_of_mem colOfA hc)
  · intro k v h
    rw [trackerGet_initTrackerKeys_zero _ _ _ h]
    exact (texCountA_eq_zero_of_untextured _ _
      fun c hc => (initCubesA_fields c hc).2).symm

theorem onCubeClickA_noHit (s : StateA) : onCubeClickA s none = (s, []) := rfl

theorem onCubeClickA_textured (s : StateA) (i : ℕ) (cube : CubeA)
    (hg : s.cubes.get? i = some cube) (ht : cube.textured = true) :
    onCubeClickA s (some i) = (s, []) := by
  rw [List.get?_eq_getElem?] at hg
  simp [onCubeClickA, hg, ht]

theorem onCubeClickA_success (s : StateA) (i : ℕ) (cube : CubeA) (h : ℕ)
    (hg : s.cubes.get? i = some cube) (ht : cube.textured = false)
    (hr : trackerGet s.cubePositions (colOfA cube) = some h) :
    onCubeClickA s (some i) =
      ({ cubes := s.cubes.set i (clickedCubeA cube h)
         cubePositions := trackerSet s.cubePositions (colOfA cube) (h + 1) },
       [dropAnim (constrainZ (newZPositionA h))]) := by
  rw [List.get?_eq_getElem?] at hg
  simp [onCubeClickA, hg, ht, readStackHeightA, hr]

theorem invA_onCubeClickA (s : StateA) (hit : Option ℕ) (h : InvA s) :
    InvA (onCubeClickA s hit).1 := by
  obtain ⟨h1, h2, h3, h4⟩ := h
  cases hit with
  | none => rw [onCubeClickA_noHit]; exact ⟨h1, h2, h3, h4⟩
  | some i =>
    rcases hg : s.cubes.get? i with _ | cube
    · have hq : onCubeClickA s (some i) = (s, []) := by
        rw [List.get?_eq_getElem?] at hg
        simp [onCubeClickA, hg]
      rw [hq]; exact ⟨h1, h2, h3, h4⟩
    · by_cases ht : cube.textured = true
      · rw [onCubeClickA_textured s i cube hg ht]; exact ⟨h1, h2, h3, h4⟩
      · have ht' : cube.textured = false := Bool.not_eq_true _ ▸ ht
        rcases hr : trackerGet s.cubePositions (colOfA cube) with _ | currentZ
        · have hq : onCubeClickA s (some i) = (s, []) := by
            rw [List.get?_eq_getElem?] at hg
            simp [onCubeClickA, hg, ht', readStackHeightA, hr]
          rw [hq]; exact ⟨h1, h2, h3, h4⟩
        · rw [onCubeClickA_success s i cube currentZ hg ht' hr]
          have hmem : cube ∈ s.cubes := List.get?_mem hg
          have hcol2 : colOfA (clickedCubeA cube currentZ) = colOfA cube := rfl
          refine ⟨?_, ?_, ?_, ?_⟩
          · show (s.cubes.set i (clickedCubeA cube currentZ)).map colOfA
              = initCubesA.map colOfA
            rw [List.map_set]
            have hgk : (s.cubes.map colOfA).get? i = some (colOfA cube) := by
              rw [List.get?_eq_getElem?] at hg ⊢
              simp [hg]
            rw [hcol2, list_set_self _ i _ hgk, h1]
          · intro c hc
            rcases List.mem_or_eq_of_mem_set hc with hcm | rfl
            · exact h2 c hcm
            · exact ⟨(h2 cube hmem).1, (h2 cube hmem).2⟩
          · intro c hc
            show (trackerGet (trackerSet s.cubePositions (colOfA cube) (currentZ + 1))
              (colOfA c)).isSome = true
            rw [trackerGet_trackerSet]
            by_cases he : colOfA c = colOfA cube
            · simp [he]
            · rw [if_neg he]
              rcases List.mem_or_eq_of_mem_set hc with hcm | rfl
              · exact h3 c hcm
              · exact absurd hcol2 he
          · intro k' v' hv'
            show v' = texCountA (s.cubes.set i (clickedCubeA cube currentZ)) k'
            rw [trackerGet_trackerSet] at hv'
            have hbal := countP_set_balance
              (fun c => decide (colOfA c = k') && c.textured) s.cubes i
              (clickedCubeA cube currentZ) cube hg
            by_cases he : k' = colOfA cube
            · rw [if_pos he] at hv'
              have hveq : v' = currentZ + 1 := (Option.some_inj.mp hv').symm
              have hcz : currentZ = texCountA s.cubes k' := h4 k' currentZ (he ▸ hr)
              have hpcube : (decide (colOfA cube = k') && cube.textured) = false := by
                simp [ht']
              have hpc2 : (decide (colOfA (clickedCubeA cube currentZ) = k')
                  && (clickedCubeA cube currentZ).textured) = true := by
                have h5 : (clickedCubeA cube currentZ).textured = true := rfl
                simp [hcol2, h5, he.symm]
              simp only [hpcube, hpc2, Bool.false_eq_true, if_false, if_true] at hbal
              unfold texCountA at hcz ⊢
              omega
            · rw [if_neg he] at hv'
              have hcz : v' = texCountA s.cubes k' := h4 k' v' hv'
              have hne : colOfA cube ≠ k' := fun hh => he hh.symm
              have hpcube : (decide (colOfA cube = k') && cube.textured) = false := by
                simp [ht']
              have hpc2 : (decide (colOfA (clickedCubeA cube currentZ) = k')
                  && (clickedCubeA cube currentZ).textured) = false := by
                simp [hcol2, hne]
              simp only [hpcube, hpc2, Bool.false_eq_true, if_false] at hbal
              unfold texCountA at hcz ⊢
              omega

theorem invA_undoAllCubesA (s : StateA) (h : InvA s) :
    InvA (undoAllCubesA s).1 := by
  obtain ⟨h1, h2, h3, h4⟩ := h
  have hcol : ∀ c ∈ s.cubes, colOfA (resetCubeA c) = colOfA c := by
    intro c hc
    show (c.original.1, c.original.2.1) = (c.pos.1, c.pos.2.1)
    rw [(h2 c hc).1, (h2 c hc).2]
  refine ⟨?_, ?_, ?_, ?_⟩
  · show (s.cubes.map resetCubeA).map colOfA = initCubesA.map colOfA
    rw [List.map_map]
    have hmc : List.map (colOfA ∘ resetCubeA) s.cubes = List.map colOfA s.cubes :=
      List.map_congr_left (fun c hc => hcol c hc)
    rw [hmc, h1]
  · intro c hc
    have hc' : c ∈ s.cubes.map resetCubeA := hc
    rcases List.mem_map.mp hc' with ⟨c0, _, rfl⟩
    exact ⟨rfl, rfl⟩
  · intro c hc
    have hc' : c ∈ s.cubes.map resetCubeA := hc
    rcases List.mem_map.mp hc' with ⟨c0, hc0, rfl⟩
    show (trackerGet (s.cubePositions.map fun e => (e.1, 0))
      (colOfA (resetCubeA c0))).isSome = true
    rw [trackerGet_map_zero, hcol c0 hc0]
    have hs := h3 c0 hc0
    cases hq : trackerGet s.cubePositions (colOfA c0) with
    | none => rw [hq] at hs; simp at hs
    | some w => simp
  · intro k v hv
    have hv' : trackerGet (s.cubePositions.map fun e => (e.1, 0)) k = some v := hv
    show v = texCountA (s.cubes.map resetCubeA) k
    rw [trackerGet_map_zero] at hv'
    have hv0 : v = 0 := by
      cases hw : trackerGet s.cubePositions k with
      | none => rw [hw] at hv'; exact absurd hv' (by simp)
      | some w =>
        rw [hw] at hv'
        simp at hv'
        omega
    rw [hv0]
    refine (texCountA_eq_zero_of_untextured _ _ ?_).symm
    intro c hc
    rcases List.mem_map.mp hc with ⟨c0, _, rfl⟩
    rfl

theorem invA_stepA (s : StateA) (e : EventA) (h : InvA s) :
    InvA (stepA s e).1 := by
  obtain ⟨b, hit⟩ := e
  match b with
  | 0 => exact invA_onCubeClickA s hit h
  | 1 => exact h
  | 2 => exact invA_undoAllCubesA s h
  | (n + 3) => exact h

theorem invA_reachable (s : StateA) (h : ReachableA s) : InvA s := by
  induction h with
  | start => exact invA_init
  | step s e _ ih => exact invA_stepA s e ih

theorem texCountA_le_colCountA (cs : List CubeA) (k : ColKey) :
    texCountA cs k ≤ colCountA cs k := by
  apply List.countP_mono_left
  intro c _ hp
  exact (Bool.and_eq_true _ _ ▸ hp).1

theorem colCountA_eq_of_map_eq (cs : List CubeA) (k : ColKey)
    (h : cs.map colOfA = initCubesA.map colOfA) :
    colCountA cs k = colCountA initCubesA k := by
  have e1 : (cs.map colOfA).countP (fun kk => decide (kk = k))
      = cs.countP (fun c => decide (colOfA c = k)) := by
    rw [List.countP_map]; rfl
  have e2 : (initCubesA.map colOfA).countP (fun kk => decide (kk = k))
      = initCubesA.countP (fun c => decide (colOfA c = k)) := by
    rw [List.countP_map]; rfl
  unfold colCountA
  rw [← e1, h, e2]

theorem invA_height_le (s : StateA) (h : InvA s) (k : ColKey) (v : ℕ)
    (hv : trackerGet s.cubePositions k = some v) : v ≤ gridSize := by
  obtain ⟨h1, _, _, h4⟩ := h
  rw [h4 k v hv]
  calc texCountA s.cubes k ≤ colCountA s.cubes k := texCountA_le_colCountA _ _
    _ = colCountA initCubesA k := colCountA_eq_of_map_eq _ _ h1
    _ ≤ gridSize := countP_col_initCubesA_le k

/-! ## The variant B invariant -/

theorem initStateB_cubes_eq : initStateB.cubes = initCubesB := by
  simp only [initStateB]

theorem initStateB_tracker_eq :
    initStateB.cubePositions = initTrackerKeys (initCubesB.map colOfB) := by
  simp only [initStateB]

theorem initStateB_highlighted_eq : initStateB.highlighted = [] := by
  simp only [initStateB]

theorem onCubeClickB_noHit (s : StateB) : onCubeClickB s none = (s, []) := rfl

theorem onCubeClickB_success (s : StateB) (i : ℕ) (clicked : CubeB)
    (hg : s.cubes.get? i = some clicked)
    (hlt : readStackHeightB s.cubePositions (colOfB clicked) < gridSize) :
    onCubeClickB s (some i) =
      ({ cubes := s.cubes ++
           [spawnedCubeB clicked (readStackHeightB s.cubePositions (colOfB clicked))]
         cubePositions := trackerSet s.cubePositions (colOfB clicked)
           (readStackHeightB s.cubePositions (colOfB clicked) + 1)
         highlighted := s.highlighted },
       [dropAnim (constrainZ
         (newZPositionB (readStackHeightB s.cubePositions (colOfB clicked))))]) := by
  rw [List.get?_eq_getElem?] at hg
  simp only [onCubeClickB, List.get?_eq_getElem?, hg, hlt, if_pos]

theorem onCubeClickB_full (s : StateB) (i : ℕ) (clicked : CubeB)
    (hg : s.cubes.get? i = some clicked)
    (hge : ¬ readStackHeightB s.cubePositions (colOfB clicked) < gridSize) :
    onCubeClickB s (some i) = (s, []) := by
  rw [List.get?_eq_getElem?] at hg
  simp only [onCubeClickB, List.get?_eq_getElem?, hg]
  rw [if_neg hge]

theorem onMouseMoveB_tracker_eq (s : StateB) (hit : Option ℕ) :
    (onMouseMoveB s hit).cubePositions = s.cubePositions := by
  cases hit with
  | none => rfl
  | some i =>
    unfold onMouseMoveB
    simp only [List.get?_eq_getElem?]
    cases hq : (resetEmissive s.cubes s.highlighted)[i]? with
    | none => simp [hq]
    | some c => simp [hq]

theorem invB_init : InvB initStateB := by
  intro k v h
  rw [initStateB_tracker_eq] at h
  rw [trackerGet_initTrackerKeys_zero _ _ _ h]
  exact Nat.zero_le _

theorem invB_onCubeClickB (s : StateB) (hit : Option ℕ) (h : InvB s) :
    InvB (onCubeClickB s hit).1 := by
  cases hit with
  | none => exact h
  | some i =>
    cases hg : s.cubes.get? i with
    | none =>
      have hq : onCubeClickB s (some i) = (s, []) := by
        rw [List.get?_eq_getElem?] at hg
        simp [onCubeClickB, hg]
      rw [hq]; exact h
    | some clicked =>
      by_cases hlt : readStackHeightB s.cubePositions (colOfB clicked) < gridSize
      · rw [onCubeClickB_success s i clicked hg hlt]
        intro k v hv
        have hv' : trackerGet (trackerSet s.cubePositions (colOfB clicked)
            (readStackHeightB s.cubePositions (colOfB clicked) + 1)) k = some v := hv
        rw [trackerGet_trackerSet] at hv'
        by_cases he : k = colOfB clicked
        · rw [if_pos he] at hv'
          have : readStackHeightB s.cubePositions (colOfB clicked) + 1 = v :=
            Option.some_inj.mp hv'
          omega
        · rw [if_neg he] at hv'
          exact h k v hv'
      · rw [onCubeClickB_full s i clicked hg hlt]
        exact h

theorem invB_stepB (s : StateB) (e : EventB) (h : InvB s) :
    InvB (stepB s e).1 := by
  cases e with
  | mousemove hit =>
    intro k v hv
    have hv' : trackerGet (onMouseMoveB s hit).cubePositions k = some v := hv
    rw [onMouseMoveB_tracker_eq] at hv'
    exact h k v hv'
  | mousedown b hit =>
    match b with
    | 0 => exact invB_onCubeClickB s hit h
    | 1 => exact h
    | 2 => exact h
    | (n + 3) => exact h

theorem invB_reachable (s : StateB) (h : ReachableB s) : InvB s := by
  induction h with
  | start => exact invB_init
  | step s e _ ih => exact invB_stepB s e ih

/-! ## Highlight bookkeeping lemmas -/

theorem withEmissive_idem (c : CubeB) (v : ℕ) :
    withEmissive (withEmissive c v) v = withEmissive c v := rfl

theorem setEmissiveAt_get? (cs : List CubeB) (i v j : ℕ) :
    (setEmissiveAt cs i v).get? j =
      if j = i then (cs.get? j).map (fun c => withEmissive c v)
      else cs.get? j := by
  unfold setEmissiveAt
  cases hq : cs.get? i with
  | none =>
    by_cases hj : j = i
    · subst hj; rw [if_pos rfl, hq]; rfl
    · rw [if_neg hj]
  | some c =>
    by_cases hj : j = i
    · subst hj
      rw [if_pos rfl, List.get?_set_eq, hq]
      rfl
    · rw [if_neg hj, List.get?_set_ne _ _ (fun hh => hj hh.symm)]

theorem foldl_setEmissive_get? (L : List ℕ) (cs : List CubeB) (v j : ℕ) :
    (L.foldl (fun acc x => setEmissiveAt acc x v) cs).get? j =
      if j ∈ L then (cs.get? j).map (fun c => withEmissive c v)
      else cs.get? j := by
  induction L generalizing cs with
  | nil => simp
  | cons a t ih =>
    rw [List.foldl_cons, ih]
    by_cases hjt : j ∈ t
    · rw [if_pos hjt, if_pos (List.mem_cons_of_mem a hjt), setEmissiveAt_get?]
      by_cases hja : j = a
      · rw [if_pos hja, Option.map_map]
        cases cs.get? j <;> rfl
      · rw [if_neg hja]
    · by_cases hja : j = a
      · rw [if_neg hjt, if_pos (hja ▸ List.mem_cons_self a t), setEmissiveAt_get?,
          if_pos hja]
      · rw [if_neg hjt, if_neg (by simp [hja, hjt]), setEmissiveAt_get?, if_neg hja]

theorem foldl_setEmissive_length (L : List ℕ) (cs : List CubeB) (v : ℕ) :
    (L.foldl (fun acc x => setEmissiveAt acc x v) cs).length = cs.length := by
  induction L generalizing cs with
  | nil => rfl
  | cons a t ih =>
    rw [List.foldl_cons, ih]
    unfold setEmissiveAt
    cases hq : cs.get? a with
    | none => rfl
    | some c => rw [List.length_set]

theorem resetEmissive_get? (cs : List CubeB) (hs : List ℕ) (j : ℕ) :
    (resetEmissive cs hs).get? j =
      if j ∈ hs then (cs.get? j).map (fun c => withEmissive c 0)
      else cs.get? j :=
  foldl_setEmissive_get? hs cs 0 j

theorem resetEmissive_length (cs : List CubeB) (hs : List ℕ) :
    (resetEmissive cs hs).length = cs.length :=
  foldl_setEmissive_length hs cs 0

theorem applyHighlight_get? (cs : List CubeB) (idxs : List ℕ) (j : ℕ) :
    (applyHighlight cs idxs).get? j =
      if j ∈ idxs then (cs.get? j).map (fun c => withEmissive c 16711680)
      else cs.get? j :=
  foldl_setEmissive_get? idxs cs 16711680 j

theorem applyHighlight_length (cs : List CubeB) (idxs : List ℕ) :
    (applyHighlight cs idxs).length = cs.length :=
  foldl_setEmissive_length idxs cs 16711680

theorem mem_highlightIdxsB (cs : List CubeB) (t : ℚ × ℚ × ℚ) (j : ℕ) :
    j ∈ highlightIdxsB cs t ↔
      ∃ c, cs.get? j = some c ∧ sameColumnB t c.pos = true := by
  unfold highlightIdxsB
  rw [List.mem_filter, List.mem_range]
  constructor
  · rintro ⟨hlt, hp⟩
    cases hq : cs.get? j with
    | none => rw [hq] at hp; simp at hp
    | some c =>
      rw [hq] at hp
      exact ⟨c, rfl, hp⟩
  · rintro ⟨c, hc, hm⟩
    have hlt : j < cs.length := by
      by_contra hge
      rw [List.get?_eq_getElem?, List.getElem?_eq_none (Nat.le_of_not_lt hge)] at hc
      exact Option.noConfusion hc
    refine ⟨hlt, ?_⟩
    rw [hc]
    exact hm

theorem onMouseMoveB_noHit (s : StateB) :
    onMouseMoveB s none =
      { s with cubes := resetEmissive s.cubes s.highlighted, highlighted := [] } := rfl

theorem onMouseMoveB_hit (s : StateB) (i : ℕ) (target : CubeB)
    (hg : (resetEmissive s.cubes s.highlighted).get? i = some target) :
    onMouseMoveB s (some i) =
      { s with
          cubes := applyHighlight (resetEmissive s.cubes s.highlighted)
            (highlightIdxsB (resetEmissive s.cubes s.highlighted) target.pos)
          highlighted :=
            highlightIdxsB (resetEmissive s.cubes s.highlighted) target.pos } := by
  rw [List.get?_eq_getElem?] at hg
  simp only [onMouseMoveB, List.get?_eq_getElem?, hg]

theorem onMouseMoveB_cubes_length (s : StateB) (hit : Option ℕ) :
    (onMouseMoveB s hit).cubes.length = s.cubes.length := by
  cases hit with
  | none => rw [onMouseMoveB_noHit]; exact resetEmissive_length _ _
  | some i =>
    cases hg : (resetEmissive s.cubes s.highlighted).get? i with
    | none =>
      have hq : onMouseMoveB s (some i) =
          { s with cubes := resetEmissive s.cubes s.highlighted, highlighted := [] } := by
        rw [List.get?_eq_getElem?] at hg
        simp only [onMouseMoveB, List.get?_eq_getElem?, hg]
      rw [hq]
      exact resetEmissive_length _ _
    | some target =>
      rw [onMouseMoveB_hit s i target hg]
      show (applyHighlight _ _).length = _
      rw [applyHighlight_length, resetEmissive_length]

theorem stepB_cubes_grow (s : StateB) (e : EventB) :
    s.cubes.length ≤ (stepB s e).1.cubes.length ∧
      ∀ j, j < s.cubes.length → (((stepB s e).1.cubes.get? j).isSome = true) := by
  have hlen : ∀ t : StateB, s.cubes.length ≤ t.cubes.length →
      ∀ j, j < s.cubes.length → ((t.cubes.get? j).isSome = true) := by
    intro t hle j hj
    rw [List.get?_eq_getElem?, List.getElem?_eq_getElem (Nat.lt_of_lt_of_le hj hle)]
    rfl
  cases e with
  | mousemove hit =>
    have h1 : (stepB s (EventB.mousemove hit)).1 = onMouseMoveB s hit := rfl
    rw [h1]
    have h2 := onMouseMoveB_cubes_length s hit
    exact ⟨Nat.le_of_eq h2.symm, hlen _ (Nat.le_of_eq h2.symm)⟩
  | mousedown b hit =>
    match b with
    | 0 =>
      have h1 : (stepB s (EventB.mousedown 0 hit)).1 = (onCubeClickB s hit).1 := rfl
      rw [h1]
      cases hit with
      | none => exact ⟨Nat.le_refl _, hlen s (Nat.le_refl _)⟩
      | some i =>
        cases hg : s.cubes.get? i with
        | none =>
          have hq : onCubeClickB s (some i) = (s, []) := by
            rw [List.get?_eq_getElem?] at hg
            simp [onCubeClickB, hg]
          rw [hq]
          exact ⟨Nat.le_refl _, hlen s (Nat.le_refl _)⟩
        | some clicked =>
          by_cases hlt : readStackHeightB s.cubePositions (colOfB clicked) < gridSize
          · rw [onCubeClickB_success s i clicked hg hlt]
            have hgrow : s.cubes.length ≤ (s.cubes ++
                [spawnedCubeB clicked (readStackHeightB s.cubePositions (colOfB clicked))]).length := by
              rw [List.length_append]
              omega
            exact ⟨hgrow, hlen _ hgrow⟩
          · rw [onCubeClickB_full s i clicked hg hlt]
            exact ⟨Nat.le_refl _, hlen s (Nat.le_refl _)⟩
    | 1 => exact ⟨Nat.le_refl _, hlen s (Nat.le_refl _)⟩
    | 2 => exact ⟨Nat.le_refl _, hlen s (Nat.le_refl _)⟩
    | (n + 3) => exact ⟨Nat.le_refl _, hlen s (Nat.le_refl _)⟩

/-! ## Numeric facts about the drop-target computation -/

theorem boundaryMin_eval : boundaryMin = -(11/4 : ℚ) := by
  norm_num [boundaryMin, gridSize, cubeSize, spacing]

theorem boundaryMax_eval : boundaryMax = (11/5 : ℚ) := by
  norm_num [boundaryMax, gridSize, cubeSize, spacing]

theorem newZPositionB_ge (h : ℕ) :
    boundaryMin + (cubeSize + spacing) ≤ newZPositionB h := by
  have hh : (0 : ℚ) ≤ (h : ℚ) := Nat.cast_nonneg h
  unfold newZPositionB boundaryMin
  norm_num [gridSize, cubeSize, spacing]
  nlinarith

/-! ## Claim theorems -/

/-- C9: a variant B secondary-button (button 2) press changes no program
state: the resulting state is exactly the input state and no tween is
scheduled (the reset body is commented out in `main.js`). -/
theorem claim9_rightClickB_noop (s : StateB) (hit : Option ℕ) :
    stepB s (EventB.mousedown 2 hit) = (s, []) := rfl

/-- C2: in variant B, a primary click on a cube whose column is already
at `gridSize` leaves the state unchanged (no cube added, no counter
change) and schedules no animation. -/
theorem claim2_fullStackB_noop (s : StateB) (i : ℕ) (clicked : CubeB)
    (hg : s.cubes.get? i = some clicked)
    (hfull : readStackHeightB s.cubePositions (colOfB clicked) = gridSize) :
    stepB s (EventB.mousedown 0 (some i)) = (s, []) :=
  onCubeClickB_full s i clicked hg (by omega)

theorem claim2_fullStackB_noop_witness :
    stepB demoFullStateB (EventB.mousedown 0 (some 0)) = (demoFullStateB, []) :=
  claim2_fullStackB_noop demoFullStateB 0 demoCubeB (by rfl) (by decide)

/-- C3: in variant A, a primary click on a cube whose `textured` flag is
already `true` is a no-op: the state (material, position, stack heights)
is unchanged and no animation is scheduled. -/
theorem claim3_texturedA_idempotent (s : StateA) (i : ℕ) (cube : CubeA)
    (hg : s.cubes.get? i = some cube) (ht : cube.textured = true) :
    stepA s (EventA.mousedown 0 (some i)) = (s, []) :=
  onCubeClickA_textured s i cube hg ht

theorem claim3_texturedA_idempotent_witness :
    stepA demoStateA2 (EventA.mousedown 0 (some 0)) = (demoStateA2, []) :=
  claim3_texturedA_idempotent demoStateA2 0
    { pos := (0, 0, 1), original := (0, 0, 0)
      mat := { map := true, opacity := 1 }, textured := true }
    (by rfl) (by rfl)

/-- C5: the drop-target computation.  The variant A pre-clamp target for
height `h` is `h*(cubeSize+spacing) - (gridSize/2)*(cubeSize+spacing)`;
variant B uses `h+1` in place of `h`; both are clamped to
`[boundaryMin, boundaryMax]`; with the source constants the variant A
target at `h = 0` is `-2.75 = boundaryMin`; and the success branches of
both click handlers schedule exactly the clamped target. -/
theorem claim5_dropTarget :
    (∀ h : ℕ, newZPositionA h =
      (h : ℚ) * (cubeSize + spacing) - ((gridSize : ℚ)/2) * (cubeSize + spacing))
    ∧ (∀ h : ℕ, newZPositionB h = newZPositionA (h + 1))
    ∧ boundaryMin = -((gridSize : ℚ)/2) * (cubeSize + spacing)
    ∧ boundaryMax = ((gridSize : ℚ)/2 - 1) * (cubeSize + spacing)
    ∧ (∀ z : ℚ, constrainZ z = min boundaryMax (max boundaryMin z))
    ∧ newZPositionA 0 = (-2.75 : ℚ)
    ∧ boundaryMin = (-2.75 : ℚ)
    ∧ (∀ (s : StateA) (i : ℕ) (cube : CubeA) (h : ℕ),
        s.cubes.get? i = some cube → cube.textured = false →
        trackerGet s.cubePositions (colOfA cube) = some h →
        (onCubeClickA s (some i)).2 = [dropAnim (constrainZ (newZPositionA h))])
    ∧ (∀ (s : StateB) (i : ℕ) (clicked : CubeB),
        s.cubes.get? i = some clicked →
        readStackHeightB s.cubePositions (colOfB clicked) < gridSize →
        (onCubeClickB s (some i)).2 =
          [dropAnim (constrainZ (newZPositionB
            (readStackHeightB s.cubePositions (colOfB clicked))))]) := by
  refine ⟨fun h => rfl, ?_, rfl, rfl, fun z => rfl, ?_, ?_, ?_, ?_⟩
  · intro h
    unfold newZPositionA newZPositionB
    push_cast
    ring
  · unfold newZPositionA
    norm_num [gridSize, cubeSize, spacing]
  · rw [boundaryMin_eval]
    norm_num
  · intro s i cube h hg ht hr
    rw [onCubeClickA_success s i cube h hg ht hr]
  · intro s i clicked hg hlt
    rw [onCubeClickB_success s i clicked hg hlt]

theorem claim5_dropTarget_witness :
    (onCubeClickA demoStateA (some 0)).2 = [dropAnim (constrainZ (newZPositionA 0))]
    ∧ (onCubeClickB demoStateB (some 0)).2 =
        [dropAnim (constrainZ (newZPositionB 0))] := by
  constructor
  · exact claim5_dropTarget.2.2.2.2.2.2.2.1 demoStateA 0 demoCubeA 0
      (by rfl) (by rfl) (by decide)
  · exact claim5_dropTarget.2.2.2.2.2.2.2.2 demoStateB 0 demoCubeB
      (by rfl) (by decide)

/-- C10: for every stack height `h`, the clamped variant B drop target is
at least one layer (`cubeSize + spacing`) above `boundaryMin`, which is
exactly the z coordinate of the bottom grid layer (`posCoord 0`), so no
variant B placement ever settles in a column's base slot. -/
theorem claim10_spawnNeverBottom (h : ℕ) :
    posCoord 0 = boundaryMin
    ∧ boundaryMin + (cubeSize + spacing) ≤ constrainZ (newZPositionB h) := by
  constructor
  · norm_num [posCoord, boundaryMin, gridSize]
  · unfold constrainZ
    apply le_min
    · rw [boundaryMin_eval, boundaryMax_eval]
      norm_num [cubeSize, spacing]
    · exact le_trans (newZPositionB_ge h) (le_max_right _ _)

/-- C4: after the variant A reset (secondary click) completes, every
cube sits at its recorded spawn coordinate with the texture detached,
opacity 0.1 and the `textured` flag cleared, and every stored stack
height is 0. -/
theorem claim4_resetA (s : StateA) (hit : Option ℕ) :
    (∀ (j : ℕ) (c : CubeA),
      (stepA s (EventA.mousedown 2 hit)).1.cubes.get? j = some c →
        c.pos = c.original ∧ c.mat.map = false ∧ c.mat.opacity = 1/10
          ∧ c.textured = false)
    ∧ (∀ (k : ColKey) (v : ℕ),
        trackerGet (stepA s (EventA.mousedown 2 hit)).1.cubePositions k = some v →
          v = 0) := by
  constructor
  · intro j c hc
    have hc' : (s.cubes.map resetCubeA).get? j = some c := hc
    rw [List.get?_eq_getElem?, List.getElem?_map] at hc'
    cases hq : s.cubes[j]? with
    | none => rw [hq] at hc'; exact Option.noConfusion hc'
    | some c0 =>
      rw [hq] at hc'
      have hc2 : some (resetCubeA c0) = some c := hc'
      rw [← Option.some_inj.mp hc2]
      exact ⟨rfl, rfl, rfl, rfl⟩
  · intro k v hv
    have hv' : trackerGet (s.cubePositions.map fun e => (e.1, 0)) k = some v := hv
    rw [trackerGet_map_zero] at hv'
    cases hw : trackerGet s.cubePositions k with
    | none => rw [hw] at hv'; exact Option.noConfusion hv'
    | some w =>
      rw [hw] at hv'
      have hv2 : some ((fun _ : ℕ => (0 : ℕ)) w) = some v := hv'
      have h0 : (0 : ℕ) = v := Option.some_inj.mp hv2
      omega

theorem claim4_resetA_witness :
    trackerGet (stepA demoStateA2 (EventA.mousedown 2 none)).1.cubePositions
        ((0 : ℚ), (0 : ℚ)) = some 0
    ∧ demoResetCubeA.pos = demoResetCubeA.original
    ∧ demoResetCubeA.mat.map = false
    ∧ demoResetCubeA.mat.opacity = 1/10
    ∧ demoResetCubeA.textured = false := by
  have htr : trackerGet (stepA demoStateA2 (EventA.mousedown 2 none)).1.cubePositions
      ((0 : ℚ), (0 : ℚ)) = some 0 := by decide
  have h1 := (claim4_resetA demoStateA2 none).1 0 demoResetCubeA (by rfl)
  have _h2 := (claim4_resetA demoStateA2 none).2 ((0 : ℚ), (0 : ℚ)) 0 htr
  exact ⟨htr, h1.1, h1.2.1, h1.2.2.1, h1.2.2.2⟩

/-- C7 counterexample: the claim says both variants' height reads return
0 for an absent column key, but the variant A read (`part_000` line 138,
no `|| 0` default) yields the absent value `none`, not 0; only the
variant B read defaults to 0. -/
theorem claim7_counterexample :
    readStackHeightA [] ((0 : ℚ), (0 : ℚ)) = none
    ∧ ¬ readStackHeightA [] ((0 : ℚ), (0 : ℚ)) = some 0
    ∧ readStackHeightB [] ((0 : ℚ), (0 : ℚ)) = 0 :=
  ⟨rfl, fun h => Option.noConfusion h, rfl⟩

/-- C7 (amended): both reads return the stored height when the key is
present; for an absent key the variant B read defaults to 0 while the
variant A read yields the absent value; and in every reachable variant A
state the key the handler reads (a tracked cube's column) is present, so
that read always returns the stored height. -/
theorem claim7_amended_lookup :
    (∀ (m : Tracker) (k : ColKey) (v : ℕ), trackerGet m k = some v →
      readStackHeightB m k = v ∧ readStackHeightA m k = some v)
    ∧ (∀ (m : Tracker) (k : ColKey), trackerGet m k = none →
      readStackHeightB m k = 0 ∧ readStackHeightA m k = none)
    ∧ (∀ s : StateA, ReachableA s → ∀ (i : ℕ) (c : CubeA),
        s.cubes.get? i = some c →
        (readStackHeightA s.cubePositions (colOfA c)).isSome = true) := by
  refine ⟨?_, ?_, ?_⟩
  · intro m k v h
    exact ⟨by rw [readStackHeightB, h]; rfl, h⟩
  · intro m k h
    exact ⟨by rw [readStackHeightB, h]; rfl, h⟩
  · intro s hs i c hg
    exact (invA_reachable s hs).2.2.1 c (List.get?_mem hg)

theorem claim7_amended_lookup_witness :
    trackerGet [(((0 : ℚ), (0 : ℚ)), 5)] ((0 : ℚ), (0 : ℚ)) = some 5
    ∧ readStackHeightB [(((0 : ℚ), (0 : ℚ)), 5)] ((0 : ℚ), (0 : ℚ)) = 5
    ∧ readStackHeightA ([] : Tracker) ((1 : ℚ), (0 : ℚ)) = none
    ∧ (readStackHeightA initStateA.cubePositions (colOfA (mkCubeA 0 0 0))).isSome
        = true := by
  have h1 : trackerGet [(((0 : ℚ), (0 : ℚ)), 5)] ((0 : ℚ), (0 : ℚ)) = some 5 := by
    decide
  have h2 := (claim7_amended_lookup.1 _ _ _ h1).1
  have h3 := (claim7_amended_lookup.2.1 ([] : Tracker) ((1 : ℚ), (0 : ℚ)) rfl).2
  have h4 := claim7_amended_lookup.2.2 initStateA ReachableA.start 0 (mkCubeA 0 0 0)
    (by rfl)
  exact ⟨h1, h2, h3, h4⟩

/-- C8: every successful variant B placement appends exactly one new
cube to the tracked list and leaves the clicked cube in place unchanged,
and no event ever removes a cube from the list (lengths never shrink and
every existing index stays occupied). -/
theorem claim8_spawnAccumulate :
    (∀ (s : StateB) (i : ℕ) (clicked : CubeB),
      s.cubes.get? i = some clicked →
      readStackHeightB s.cubePositions (colOfB clicked) < gridSize →
      (stepB s (EventB.mousedown 0 (some i))).1.cubes
        = s.cubes ++
            [spawnedCubeB clicked (readStackHeightB s.cubePositions (colOfB clicked))]
      ∧ (stepB s (EventB.mousedown 0 (some i))).1.cubes.get? i = some clicked)
    ∧ (∀ (s : StateB) (e : EventB),
        s.cubes.length ≤ (stepB s e).1.cubes.length
        ∧ ∀ j, j < s.cubes.length → ((stepB s e).1.cubes.get? j).isSome = true) := by
  constructor
  · intro s i clicked hg hlt
    have hs : (stepB s (EventB.mousedown 0 (some i))).1 = (onCubeClickB s (some i)).1 :=
      rfl
    rw [hs, onCubeClickB_success s i clicked hg hlt]
    refine ⟨rfl, ?_⟩
    show (s.cubes ++
      [spawnedCubeB clicked (readStackHeightB s.cubePositions (colOfB clicked))]).get? i
      = some clicked
    have hlen : i < s.cubes.length := by
      by_contra hge
      rw [List.get?_eq_getElem?, List.getElem?_eq_none (Nat.le_of_not_lt hge)] at hg
      exact Option.noConfusion hg
    rw [List.get?_append hlen]
    exact hg
  · exact stepB_cubes_grow

theorem claim8_spawnAccumulate_witness :
    (stepB demoStateB (EventB.mousedown 0 (some 0))).1.cubes
      = demoStateB.cubes ++ [spawnedCubeB demoCubeB 0]
    ∧ (stepB demoStateB (EventB.mousedown 0 (some 0))).1.cubes.get? 0 = some demoCubeB
    ∧ demoStateB.cubes.length ≤ (stepB demoStateB (EventB.mousemove none)).1.cubes.length := by
  have h := claim8_spawnAccumulate.1 demoStateB 0 demoCubeB (by rfl) (by decide)
  exact ⟨h.1, h.2, (claim8_spawnAccumulate.2 demoStateB (EventB.mousemove none)).1⟩

/-! ## Mouse-move characterisation -/

theorem onMouseMoveB_hitInvalid (s : StateB) (i : ℕ)
    (hgi : (resetEmissive s.cubes s.highlighted).get? i = none) :
    onMouseMoveB s (some i) =
      { s with cubes := resetEmissive s.cubes s.highlighted, highlighted := [] } := by
  rw [List.get?_eq_getElem?] at hgi
  simp only [onMouseMoveB, List.get?_eq_getElem?, hgi]

theorem onMouseMoveB_hit_highlighted (s : StateB) (i : ℕ) (target : CubeB)
    (hg : s.cubes.get? i = some target) :
    (onMouseMoveB s (some i)).highlighted =
      highlightIdxsB (resetEmissive s.cubes s.highlighted) target.pos := by
  have hres := resetEmissive_get? s.cubes s.highlighted i
  by_cases hi : i ∈ s.highlighted
  · rw [if_pos hi, hg] at hres
    have hsome : (resetEmissive s.cubes s.highlighted).get? i
        = some (withEmissive target 0) := hres
    rw [onMouseMoveB_hit s i (withEmissive target 0) hsome]
    rfl
  · rw [if_neg hi, hg] at hres
    rw [onMouseMoveB_hit s i target hres]

theorem onMouseMoveB_hit_cubes (s : StateB) (i : ℕ) (target : CubeB)
    (hg : s.cubes.get? i = some target) :
    (onMouseMoveB s (some i)).cubes =
      applyHighlight (resetEmissive s.cubes s.highlighted)
        (highlightIdxsB (resetEmissive s.cubes s.highlighted) target.pos) := by
  have hres := resetEmissive_get? s.cubes s.highlighted i
  by_cases hi : i ∈ s.highlighted
  · rw [if_pos hi, hg] at hres
    have hsome : (resetEmissive s.cubes s.highlighted).get? i
        = some (withEmissive target 0) := hres
    rw [onMouseMoveB_hit s i (withEmissive target 0) hsome]
    rfl
  · rw [if_neg hi, hg] at hres
    rw [onMouseMoveB_hit s i target hres]

theorem highlightIdxs_reset_mem (s : StateB) (p : ℚ × ℚ × ℚ) (j : ℕ) :
    j ∈ highlightIdxsB (resetEmissive s.cubes s.highlighted) p ↔
      ∃ c, s.cubes.get? j = some c ∧ sameColumnB p c.pos = true := by
  rw [mem_highlightIdxsB]
  constructor
  · rintro ⟨c, hc, hm⟩
    rw [resetEmissive_get?] at hc
    by_cases hj : j ∈ s.highlighted
    · rw [if_pos hj] at hc
      cases hq : s.cubes.get? j with
      | none => rw [hq] at hc; exact Option.noConfusion hc
      | some c0 =>
        rw [hq] at hc
        have hcc : some (withEmissive c0 0) = some c := hc
        refine ⟨c0, rfl, ?_⟩
        rw [← Option.some_inj.mp hcc] at hm
        exact hm
    · rw [if_neg hj] at hc
      exact ⟨c, hc, hm⟩
  · rintro ⟨c, hc, hm⟩
    rw [resetEmissive_get?]
    by_cases hj : j ∈ s.highlighted
    · refine ⟨withEmissive c 0, ?_, hm⟩
      rw [if_pos hj, hc]
      rfl
    · rw [if_neg hj]
      exact ⟨c, hc, hm⟩

/-- C6: after a variant B pointer move whose ray hits cube `i`, the
highlighted set contains exactly the tracked cubes whose x and y each
differ from the hit cube's by less than 0.001; each of them is tinted
red (`0xff0000`); a previously highlighted cube not in the new set has
its tint reset to black; and when nothing is hit the set is empty. -/
theorem claim6_highlightColumn :
    (∀ (s : StateB) (i : ℕ) (target : CubeB) (j : ℕ),
      s.cubes.get? i = some target →
      (j ∈ (onMouseMoveB s (some i)).highlighted ↔
        ∃ c, s.cubes.get? j = some c ∧ sameColumnB target.pos c.pos = true))
    ∧ (∀ (s : StateB) (i : ℕ) (target : CubeB) (j : ℕ) (c' : CubeB),
      s.cubes.get? i = some target →
      j ∈ (onMouseMoveB s (some i)).highlighted →
      (onMouseMoveB s (some i)).cubes.get? j = some c' →
      c'.mat.emissive = 16711680)
    ∧ (∀ (s : StateB) (hit : Option ℕ) (j : ℕ) (c' : CubeB),
      j ∈ s.highlighted →
      j ∉ (onMouseMoveB s hit).highlighted →
      (onMouseMoveB s hit).cubes.get? j = some c' →
      c'.mat.emissive = 0)
    ∧ (∀ s : StateB, (onMouseMoveB s none).highlighted = []) := by
  have hreset0 : ∀ (s : StateB) (j : ℕ) (c' : CubeB), j ∈ s.highlighted →
      (resetEmissive s.cubes s.highlighted).get? j = some c' →
      c'.mat.emissive = 0 := by
    intro s j c' hj hc'
    rw [resetEmissive_get?, if_pos hj] at hc'
    cases hq : s.cubes.get? j with
    | none => rw [hq] at hc'; exact Option.noConfusion hc'
    | some c0 =>
      rw [hq] at hc'
      have hcc : some (withEmissive c0 0) = some c' := hc'
      rw [← Option.some_inj.mp hcc]
      rfl
  refine ⟨?_, ?_, ?_, fun s => rfl⟩
  · intro s i target j hg
    rw [onMouseMoveB_hit_highlighted s i target hg, highlightIdxs_reset_mem]
  · intro s i target j c' hg hj hc'
    rw [onMouseMoveB_hit_highlighted s i target hg] at hj
    rw [onMouseMoveB_hit_cubes s i target hg] at hc'
    rw [applyHighlight_get?, if_pos hj] at hc'
    cases hq : (resetEmissive s.cubes s.highlighted).get? j with
    | none => rw [hq] at hc'; exact Option.noConfusion hc'
    | some c0 =>
      rw [hq] at hc'
      have hcc : some (withEmissive c0 16711680) = some c' := hc'
      rw [← Option.some_inj.mp hcc]
      rfl
  · intro s hit j c' hjold hjnew hc'
    cases hit with
    | none =>
      rw [onMouseMoveB_noHit] at hc'
      exact hreset0 s j c' hjold hc'
    | some i =>
      cases hgi : (resetEmissive s.cubes s.highlighted).get? i with
      | none =>
        rw [onMouseMoveB_hitInvalid s i hgi] at hc'
        exact hreset0 s j c' hjold hc'
      | some target =>
        rw [onMouseMoveB_hit s i target hgi] at hjnew hc'
        have hc2 : (applyHighlight (resetEmissive s.cubes s.highlighted)
            (highlightIdxsB (resetEmissive s.cubes s.highlighted) target.pos)).get? j
            = some c' := hc'
        rw [applyHighlight_get?, if_neg hjnew] at hc2
        exact hreset0 s j c' hjold hc2

theorem claim6_highlightColumn_witness :
    1 ∈ (onMouseMoveB demoHoverStateB (some 0)).highlighted
    ∧ 3 ∉ (onMouseMoveB demoHoverStateB (some 0)).highlighted
    ∧ (withEmissive (demoCubeBAt (0, 0, 1)) 16711680).mat.emissive = 16711680
    ∧ (withEmissive (demoCubeBAt (1, 0, 0)) 0).mat.emissive = 0
    ∧ (onMouseMoveB demoHoverStateB none).highlighted = [] := by
  have hg : demoHoverStateB.cubes.get? 0 = some (demoCubeBAt (0, 0, 0)) := rfl
  have hsame : sameColumnB (demoCubeBAt (0, 0, 0)).pos
      (demoCubeBAt (0, 0, 1)).pos = true := by
    norm_num [sameColumnB, demoCubeBAt]
  have hiff1 := claim6_highlightColumn.1 demoHoverStateB 0 (demoCubeBAt (0, 0, 0)) 1 hg
  have hmem : 1 ∈ (onMouseMoveB demoHoverStateB (some 0)).highlighted :=
    hiff1.mpr ⟨demoCubeBAt (0, 0, 1), rfl, hsame⟩
  have hiff3 := claim6_highlightColumn.1 demoHoverStateB 0 (demoCubeBAt (0, 0, 0)) 3 hg
  have hnot3 : 3 ∉ (onMouseMoveB demoHoverStateB (some 0)).highlighted := by
    intro hmem3
    rcases hiff3.mp hmem3 with ⟨c, hc, hm⟩
    have h5 : some (demoCubeBAt (1, 0, 0)) = some c := hc
    rw [← Option.some_inj.mp h5] at hm
    norm_num [sameColumnB, demoCubeBAt] at hm
  have hget1 : (onMouseMoveB demoHoverStateB (some 0)).cubes.get? 1
      = some (withEmissive (demoCubeBAt (0, 0, 1)) 16711680) := by
    rw [onMouseMoveB_hit_cubes demoHoverStateB 0 (demoCubeBAt (0, 0, 0)) hg]
    have hmem' : 1 ∈ highlightIdxsB
        (resetEmissive demoHoverStateB.cubes demoHoverStateB.highlighted)
        (demoCubeBAt (0, 0, 0)).pos := by
      rw [← onMouseMoveB_hit_highlighted demoHoverStateB 0 (demoCubeBAt (0, 0, 0)) hg]
      exact hmem
    rw [applyHighlight_get?, if_pos hmem', resetEmissive_get?, if_neg (by decide)]
    rfl
  have hb := claim6_highlightColumn.2.1 demoHoverStateB 0 (demoCubeBAt (0, 0, 0)) 1
    (withEmissive (demoCubeBAt (0, 0, 1)) 16711680) hg hmem hget1
  have hget3 : (onMouseMoveB demoHoverStateB (some 0)).cubes.get? 3
      = some (withEmissive (demoCubeBAt (1, 0, 0)) 0) := by
    rw [onMouseMoveB_hit_cubes demoHoverStateB 0 (demoCubeBAt (0, 0, 0)) hg]
    have hnot' : 3 ∉ highlightIdxsB
        (resetEmissive demoHoverStateB.cubes demoHoverStateB.highlighted)
        (demoCubeBAt (0, 0, 0)).pos := by
      rw [← onMouseMoveB_hit_highlighted demoHoverStateB 0 (demoCubeBAt (0, 0, 0)) hg]
      exact hnot3
    rw [applyHighlight_get?, if_neg hnot', resetEmissive_get?, if_pos (by decide)]
    rfl
  have hcth := claim6_highlightColumn.2.2.1 demoHoverStateB (some 0) 3
    (withEmissive (demoCubeBAt (1, 0, 0)) 0) (by decide) hnot3 hget3
  exact ⟨hmem, hnot3, hb, hcth, claim6_highlightColumn.2.2.2 demoHoverStateB⟩

/-- C1: in both variants every column's stack-height counter reads 0 at
startup, a successful placement (variant A: click on an untextured cube;
variant B: click with the column below `gridSize`) increments the
clicked column's counter by exactly 1, and in every reachable state no
counter exceeds `gridSize`. -/
theorem claim1_stackHeights :
    (∀ k : ColKey, (trackerGet initStateA.cubePositions k).getD 0 = 0)
    ∧ (∀ k : ColKey, (trackerGet initStateB.cubePositions k).getD 0 = 0)
    ∧ (∀ (s : StateA) (i : ℕ) (cube : CubeA) (h : ℕ),
        s.cubes.get? i = some cube → cube.textured = false →
        trackerGet s.cubePositions (colOfA cube) = some h →
        trackerGet (stepA s (EventA.mousedown 0 (some i))).1.cubePositions
          (colOfA cube) = some (h + 1))
    ∧ (∀ (s : StateB) (i : ℕ) (clicked : CubeB),
        s.cubes.get? i = some clicked →
        readStackHeightB s.cubePositions (colOfB clicked) < gridSize →
        trackerGet (stepB s (EventB.mousedown 0 (some i))).1.cubePositions
          (colOfB clicked)
          = some (readStackHeightB s.cubePositions (colOfB clicked) + 1))
    ∧ (∀ s : StateA, ReachableA s → ∀ k : ColKey,
        (trackerGet s.cubePositions k).getD 0 ≤ gridSize)
    ∧ (∀ s : StateB, ReachableB s → ∀ k : ColKey,
        (trackerGet s.cubePositions k).getD 0 ≤ gridSize) := by
  refine ⟨?_, ?_, ?_, ?_, ?_, ?_⟩
  · intro k
    cases hq : trackerGet initStateA.cubePositions k with
    | none => rfl
    | some v =>
      have hq' : trackerGet (initTrackerKeys (initCubesA.map colOfA)) k = some v := by
        rw [← initStateA_tracker_eq]; exact hq
      exact trackerGet_initTrackerKeys_zero _ _ _ hq'
  · intro k
    cases hq : trackerGet initStateB.cubePositions k with
    | none => rfl
    | some v =>
      have hq' : trackerGet (initTrackerKeys (initCubesB.map colOfB)) k = some v := by
        rw [← initStateB_tracker_eq]; exact hq
      exact trackerGet_initTrackerKeys_zero _ _ _ hq'
  · intro s i cube h hg ht hr
    have hs : (stepA s (EventA.mousedown 0 (some i))).1 = (onCubeClickA s (some i)).1 :=
      rfl
    rw [hs, onCubeClickA_success s i cube h hg ht hr]
    show trackerGet (trackerSet s.cubePositions (colOfA cube) (h + 1)) (colOfA cube)
      = some (h + 1)
    rw [trackerGet_trackerSet, if_pos rfl]
  · intro s i clicked hg hlt
    have hs : (stepB s (EventB.mousedown 0 (some i))).1 = (onCubeClickB s (some i)).1 :=
      rfl
    rw [hs, onCubeClickB_success s i clicked hg hlt]
    show trackerGet (trackerSet s.cubePositions (colOfB clicked)
      (readStackHeightB s.cubePositions (colOfB clicked) + 1)) (colOfB clicked)
      = some (readStackHeightB s.cubePositions (colOfB clicked) + 1)
    rw [trackerGet_trackerSet, if_pos rfl]
  · intro s hs k
    cases hq : trackerGet s.cubePositions k with
    | none => exact Nat.zero_le _
    | some v => exact invA_height_le s (invA_reachable s hs) k v hq
  · intro s hs k
    cases hq : trackerGet s.cubePositions k with
    | none => exact Nat.zero_le _
    | some v => exact invB_reachable s hs k v hq

theorem claim1_stackHeights_witness :
    (trackerGet initStateA.cubePositions ((0 : ℚ), (0 : ℚ))).getD 0 = 0
    ∧ (trackerGet initStateB.cubePositions ((0 : ℚ), (0 : ℚ))).getD 0 = 0
    ∧ trackerGet (stepA demoStateA (EventA.mousedown 0 (some 0))).1.cubePositions
        ((0 : ℚ), (0 : ℚ)) = some 1
    ∧ trackerGet (stepB demoStateB (EventB.mousedown 0 (some 0))).1.cubePositions
        ((0 : ℚ), (0 : ℚ)) = some 1
    ∧ (trackerGet initStateA.cubePositions ((0 : ℚ), (0 : ℚ))).getD 0 ≤ gridSize
    ∧ (trackerGet initStateB.cubePositions ((0 : ℚ), (0 : ℚ))).getD 0 ≤ gridSize := by
  refine ⟨claim1_stackHeights.1 _, claim1_stackHeights.2.1 _, ?_, ?_, ?_, ?_⟩
  · exact claim1_stackHeights.2.2.1 demoStateA 0 demoCubeA 0 (by rfl) (by rfl) (by decide)
  · exact claim1_stackHeights.2.2.2.1 demoStateB 0 demoCubeB (by rfl) (by decide)
  · exact claim1_stackHeights.2.2.2.2.1 initStateA ReachableA.start _
  · exact claim1_stackHeights.2.2.2.2.2 initStateB ReachableB.start _
